import Mathlib

/-
Shallow embedding of src/heimdallr_client/heimdallr_client.py.

The program resolves an (optional artifact name, content hash) request to a
running IDA instance.  We embed the pure decision logic of the functions the
claims are about: search_history, get_history, get_history_v2, verify_db,
search_idb_path (artifact locator), find_rpc and poll_rpc (endpoint registry),
lock_search, release_lock, check_lock (resolution lock), and the evict-and-retry
while loop in run (resolution coordinator).

Filesystem contents and the external hash function are passed in explicitly as
an environment; Python exceptions are modelled with Except; Python dicts read
from JSON files are modelled as association lists in insertion order with
distinct keys, which is also their iteration order.
-/

set_option maxRecDepth 4000

/-- Result of loading a JSON file from disk: the file may be absent (the code
checks existence and returns None), present but malformed (json.load raises,
uncaught in the functions modelled here), or well formed with a parsed value. -/
inductive JsonFile (α : Type) where
  | absent
  | malformed
  | ok (val : α)

/-- Environment of on-disk and external facts read by the locator:
the two recency-index files (history.2.json and history.json), file existence,
the external content-hash function (idblib get_hash_fast, as a black box, in
hex form), the configured idb_path search roots, and the results of the two
glob calls of search_idb_path. -/
structure Env where
  histV2 : JsonFile (List String × List (String × String))
  history : JsonFile (List String)
  fsExists : String → Bool
  getHash : String → String
  roots : List String
  rootExists : String → Bool
  globName : String → String → List String
  globExts : String → List String

/-- Constant idb_exts from the source: recognised IDB file extensions. -/
def idb_exts : List String := ["idb", "i64"]

/-- Python truthiness of an optional string: None and the empty string are
falsy; this is the test the source performs with bare `if db_name`. -/
def pyTruthyS : Option String → Bool
  | none => false
  | some s => !(s == "")

/-- Python negative slice s[-n:]: the last n characters, or all of s when s is
shorter than n. -/
def pyTail (s : String) (n : Nat) : String :=
  String.mk (s.data.drop (s.data.length - n))

/-- Accumulator for lastSegment: keeps the characters seen since the most
recent path separator. -/
def lastSegAux : List Char → List Char → List Char
  | [], acc => acc.reverse
  | c :: cs, acc => if c = '/' then lastSegAux cs [] else lastSegAux cs (c :: acc)

/-- Final path component, modelling pathlib Path.name for POSIX-style paths. -/
def lastSegment (p : String) : String := String.mk (lastSegAux p.data [])

/-- Source function add_extension: appends an extension string to a path. -/
def add_extension (p ext : String) : String := p ++ ext

/-- Source function get_history: returns none when history.json is absent,
raises when it is malformed, and otherwise the parsed list of paths. -/
def get_history (e : Env) : Except String (Option (List String)) :=
  match e.history with
  | .absent => .ok none
  | .malformed => .error "JSONDecodeError"
  | .ok v => .ok (some v)

/-- Source function get_history_v2: returns none when history.2.json is absent,
raises when it is malformed (json.load or the files and hash_table key lookups),
and otherwise the (files, hash_table) pair. -/
def get_history_v2 (e : Env) : Except String (Option (List String × List (String × String))) :=
  match e.histV2 with
  | .absent => .ok none
  | .malformed => .error "JSONDecodeError"
  | .ok v => .ok (some v)

/-- Source function verify_db: computes the hash of the input file of the IDB
at p via idblib and compares it with the requested hash. -/
def verify_db (e : Env) (p fh : String) : Bool := e.getHash p == fh

/-- The hash_table loop of search_history (source lines 292 to 298): skip
entries whose recorded hash differs from the requested one, skip entries whose
path differs from db_name when db_name is truthy (the source compares db_name
against the whole path key, not against its last segment), return the first
remaining path. -/
def scanTable (db : Option String) (fh : String) : List (String × String) → Option String
  | [] => none
  | (path, hash) :: rest =>
    if hash != fh then scanTable db fh rest
    else if pyTruthyS db && db.getD "" != path then scanTable db fh rest
    else some path

/-- The files loop of search_history (source lines 300 to 324): for each
recorded path, when db_name is truthy and the last three characters of the
filename are not a recognised extension, append the last four characters of
db_name; skip candidates that do not exist on disk, whose filename differs
from a truthy db_name, or that fail verify_db; return the first survivor. -/
def scanFiles (e : Env) (db : Option String) (fh : String) : List String → Option String
  | [] => none
  | item :: rest =>
    let n0 := lastSegment item
    let withExt := pyTruthyS db && !(idb_exts.contains (pyTail n0 3))
    let p := if withExt then add_extension item (pyTail (db.getD "") 4) else item
    let n := if withExt then lastSegment p else n0
    if !(e.fsExists p) then scanFiles e db fh rest
    else if pyTruthyS db && n != db.getD "" then scanFiles e db fh rest
    else if !(verify_db e p fh) then scanFiles e db fh rest
    else some p

/-- Source function search_history (lines 271 to 327).  When history.2.json is
absent the code loads history.json into the local variable files and, when that
list is truthy, still executes the unconditional unpacking assignment
files, hash_table = history with history equal to None, which raises TypeError;
the legacy list is never scanned.  When the v2 file is loaded, the hash_table
loop runs first, then the files loop over the v2 files list. -/
def search_history (e : Env) (db : Option String) (fh : String) : Except String (Option String) :=
  match get_history_v2 e with
  | .error msg => .error msg
  | .ok none =>
    match get_history e with
    | .error msg => .error msg
    | .ok none => .ok none
    | .ok (some files) =>
      if files.isEmpty then .ok none
      else .error "TypeError: cannot unpack non-iterable NoneType object"
  | .ok (some (files, hash_table)) =>
    match scanTable db fh hash_table with
    | some p => .ok (some p)
    | none => .ok (scanFiles e db fh files)

/-- The inner glob loop of search_idb_path: return the first candidate that
passes verify_db. -/
def scanRoot (e : Env) (fh : String) : List String → Option String
  | [] => none
  | c :: cs => if !(verify_db e c fh) then scanRoot e fh cs else some c

/-- Glob selection of search_idb_path: with a truthy db_name glob recursively
for that exact filename, otherwise for all recognised artifact extensions. -/
def globResults (e : Env) (db : Option String) (root : String) : List String :=
  if pyTruthyS db then e.globName root (db.getD "") else e.globExts root

/-- The outer loop of search_idb_path over the configured roots: skip roots
that do not exist, return the first verified candidate of any root. -/
def searchRoots (e : Env) (db : Option String) (fh : String) : List String → Option String
  | [] => none
  | item :: rest =>
    if !(e.rootExists item) then searchRoots e db fh rest
    else
      match scanRoot e fh (globResults e db item) with
      | some p => some p
      | none => searchRoots e db fh rest

/-- Source function search_idb_path (lines 329 to 363): returns none when the
configured root list is empty, otherwise scans the roots in order. -/
def search_idb_path (e : Env) (db : Option String) (fh : String) : Option String :=
  if e.roots.isEmpty then none
  else searchRoots e db fh e.roots

/-- The hash_table of the loaded v2 recency index, empty when the v2 file is
not well formed.  Used to state trust assumptions about the index. -/
def tableOf (e : Env) : List (String × String) :=
  match e.histV2 with
  | .ok v => v.2
  | _ => []

/-- One endpoint descriptor file in the rpc_endpoints registry directory:
either json.load raises on it, or it parses to a JSON object modelled as an
association list of string fields. -/
inductive DescFile where
  | malformed
  | parsed (d : List (String × String))

/-- Source function find_rpc (lines 153 to 212) over the directory listing,
given as (path, contents) pairs.  json.load is called without any exception
handler, so a malformed file raises out of the whole scan.  A parsed
descriptor is skipped when it is empty, when a truthy db_name differs from its
file_name field, when its file_hash field differs from the requested hash, or
when its address field is missing or falsy; otherwise its address and path are
returned. -/
def find_rpc (db : Option String) (fh : String) :
    List (String × DescFile) → Except String (Option (String × String))
  | [] => .ok none
  | (_, .malformed) :: _ => .error "JSONDecodeError"
  | (p, .parsed d) :: rest =>
    if d.isEmpty then find_rpc db fh rest
    else if pyTruthyS db && d.lookup "file_name" != some (db.getD "") then find_rpc db fh rest
    else if d.lookup "file_hash" != some fh then find_rpc db fh rest
    else
      match d.lookup "address" with
      | none => find_rpc db fh rest
      | some a => if a == "" then find_rpc db fh rest else .ok (some (a, p))

/-- The while loop of poll_rpc (lines 230 to 242) with time in half units so
that the 0.5 backoff is one step: timeout is limit half units after start,
the loop runs while elapsed time plus backoff is below the timeout, sleeps one
backoff, then calls find_rpc; find is the result of that call at each instant. -/
def poll_loop (find : Nat → Option (String × String)) (limit t : Nat) :
    Option (String × String) :=
  if _h : t + 1 < limit then
    match find (t + 1) with
    | some r => some r
    | none => poll_loop find limit (t + 1)
  else none
termination_by limit - t
decreasing_by omega

/-- Source function poll_rpc with its default limit of 32 time units, which is
64 half units: polls find_rpc every half unit and returns none on timeout. -/
def poll_rpc (find : Nat → Option (String × String)) : Option (String × String) :=
  poll_loop find 64 0

/-- Names bound at module scope in heimdallr_client.py: imports, module-level
globals, and the functions defined by the module. -/
def module_names : List String :=
  ["sys", "log", "urlparse", "parse_qsl", "unquote", "Optional", "Tuple",
   "NoReturn", "Path", "chain", "platform", "os", "json", "time", "traceback",
   "random", "subprocess", "grpc", "heimdallr_pb2", "heimdallr_pb2_grpc",
   "idblib", "idb_exts", "idb_path", "ida_location", "heimdallr_path",
   "idauser_path", "alert", "error_message", "set_global_paths",
   "load_settings", "get_history", "get_history_v2", "find_rpc", "poll_rpc",
   "verify_db", "add_extension", "search_history", "search_idb_path",
   "search_idb", "launch_ida", "not_exist_wait", "lock_search", "release_lock",
   "check_lock", "run", "start"]

/-- Local variables assigned anywhere in the body of run (lines 532 to 614). -/
def run_local_names : List String :=
  ["url", "db_name", "file_hash", "locked", "parsed_url", "query", "type",
   "finished", "result", "endpoint", "path", "channel", "stub", "request",
   "response", "view", "rpc_error"]

/-- Python name resolution inside run: a name evaluates to itself when it is a
local of run or a module-scope name, and raises NameError otherwise. -/
def py_lookup_name (n : String) : Except String String :=
  if run_local_names.contains n || module_names.contains n then .ok n
  else .error ("NameError: name " ++ n ++ " is not defined")

/-- Exit code actually produced by the poll-timeout branch of run (line 580).
The branch is error_message with an f-string interpolating the name idb_name
and exit code -6; the f-string is evaluated first, so when the name does not
resolve, NameError propagates out of run and the top-level handler in start
(lines 616 to 626) calls error_message with exit code -1 instead. -/
def poll_timeout_exit : Int :=
  match py_lookup_name "idb_name" with
  | .ok _ => -6
  | .error _ => -1

/-- Outcome of the gRPC call of one iteration of the while loop of run:
success, transport failure with status UNAVAILABLE, or any other RpcError. -/
inductive RpcOutcome where
  | ok
  | unavailable
  | otherError
deriving DecidableEq

/-- Observable status of the while loop of run after some iterations. -/
inductive LoopStatus where
  | running
  | done
  | exited (code : Int)
deriving DecidableEq

/-- What one iteration of the while loop of run observes: whether find_rpc
returns a result, whether launch_ida succeeds (its failures exit the process,
abstracted to exit code 1, the artifact-not-found code), whether poll_rpc
returns a result, and the outcome of the gRPC call. -/
structure IterEnv where
  findSome : Bool
  launchOk : Bool
  pollSome : Bool
  rpc : RpcOutcome

/-- Handling of the gRPC call result in run (lines 583 to 609): success sets
finished, UNAVAILABLE unlinks the descriptor and loops, any other RpcError
calls error_message with exit code -2. -/
def rpc_step : RpcOutcome → LoopStatus
  | .ok => .done
  | .unavailable => .running
  | .otherError => .exited (-2)

/-- One iteration of the while loop of run (lines 570 to 609). -/
def run_iter (e : IterEnv) : LoopStatus :=
  if e.findSome then rpc_step e.rpc
  else if !e.launchOk then .exited 1
  else if e.pollSome then rpc_step e.rpc
  else .exited poll_timeout_exit

/-- Status of the while loop of run after n iterations against the given
per-iteration observations; the loop body has no iteration counter, so the
only way it stops is done or a process exit. -/
def run_loop (env : Nat → IterEnv) : Nat → LoopStatus
  | 0 => .running
  | n + 1 =>
    match run_loop env n with
    | .running => run_iter (env n)
    | s => s

/-- A row of the search.lock table: stringified process id mapped to the
claimed (idb name, file hash) pair, in dict insertion order. -/
abbrev LockRow := String × String × String

/-- Python dict assignment locks[pid] = v followed by a JSON round trip:
an existing key keeps its position and takes the new value, a new key is
appended at the end. -/
def setEntry : List LockRow → String → String × String → List LockRow
  | [], pid, v => [(pid, v)]
  | (k, r) :: rest, pid, v =>
    if k == pid then (k, v) :: rest else (k, r) :: setEntry rest pid v

/-- Python dict pop of pid after a membership test: removes the row with that
key and keeps every other row in order. -/
def popEntry : List LockRow → String → List LockRow
  | [], _ => []
  | (k, r) :: rest, pid => if k == pid then rest else (k, r) :: popEntry rest pid

/-- Shared filesystem state of the resolution lock: whether the in-progress
marker search.lock.tmp exists, and the contents of the search.lock table file
(none when the file is absent; an absent file reads as the empty table). -/
structure LockFs where
  marker : Bool
  table : Option (List LockRow)

/-- The lock-table mapping currently on disk: the table contents, with an
absent file read as the empty mapping, exactly as lock_search and release_lock
read it. -/
def tableMapping (s : LockFs) : List LockRow := s.table.getD []

/-- Source function lock_search (lines 437 to 469), for a run in which no
concurrent process removes the marker: when the marker exists, not_exist_wait
polls for 10 time units and raises TimeoutError; the except handler (lines 466
to 469) sees the marker file present, removes it, and re-raises.  Otherwise
the marker is created, the table is read (empty when absent), the row for pid
is set, the new table is written to the marker path and atomically renamed
over the table file, which also removes the marker. -/
def lock_search (s : LockFs) (pid name hash : String) : Except String Unit × LockFs :=
  if s.marker then
    (.error "TimeoutError: Ran out of time waiting for search lock",
     { s with marker := false })
  else
    (.ok (),
     { marker := false, table := some (setEntry (s.table.getD []) pid (name, hash)) })

/-- Source function release_lock (lines 471 to 505), under the same
single-mutator reading as lock_search: same marker protocol, but the mutation
pops the row for pid when present. -/
def release_lock (s : LockFs) (pid : String) : Except String Unit × LockFs :=
  if s.marker then
    (.error "TimeoutError: Ran out of time waiting for search lock",
     { s with marker := false })
  else
    (.ok (), { marker := false, table := some (popEntry (s.table.getD []) pid) })

/-- The row loop of check_lock (lines 521 to 528): rows whose pair differs
from the request are skipped; a row of another process whose id compares
lexicographically below ours (the Python string comparison our_pid > pid)
returns False; otherwise the loop falls through to True. -/
def check_scan (our n h : String) : List LockRow → Bool
  | [] => true
  | (pid, name, hash) :: rest =>
    if name != n || hash != h then check_scan our n h rest
    else if pid != our && decide (pid < our) then false
    else check_scan our n h rest

/-- Source function check_lock (lines 507 to 528): reads the table, raises
RuntimeError when our stringified pid has no row, otherwise runs the row
loop. -/
def check_lock (locks : List LockRow) (our n h : String) : Except String Bool :=
  if our ∈ locks.map Prod.fst then .ok (check_scan our n h locks)
  else .error "Search lock not taken before lock check"

/-- Any path returned by the hash_table loop appears in the table bound to the
requested hash. -/
theorem scanTable_mem (db : Option String) (fh : String) :
    ∀ t p, scanTable db fh t = some p → (p, fh) ∈ t := by
  intro t
  induction t with
  | nil => intro p hp; simp [scanTable] at hp
  | cons head rest ih =>
    intro p hp
    obtain ⟨path, hash⟩ := head
    simp only [scanTable] at hp
    by_cases h1 : (hash != fh) = true
    · rw [if_pos h1] at hp
      exact List.mem_cons_of_mem _ (ih p hp)
    · rw [if_neg h1] at hp
      by_cases h2 : (pyTruthyS db && db.getD "" != path) = true
      · rw [if_pos h2] at hp
        exact List.mem_cons_of_mem _ (ih p hp)
      · rw [if_neg h2] at hp
        injection hp with hp
        have hh : hash = fh := by simpa [bne_iff_ne] using h1
        rw [← hp, ← hh]
        exact List.mem_cons_self _ _

/-- Any path returned by the files loop of search_history passed verify_db,
so its computed content hash is the requested hash. -/
theorem scanFiles_hash (e : Env) (db : Option String) (fh : String) :
    ∀ l p, scanFiles e db fh l = some p → e.getHash p = fh := by
  intro l
  induction l with
  | nil => intro p hp; simp [scanFiles] at hp
  | cons item rest ih =>
    intro p hp
    simp only [scanFiles] at hp
    split at hp
    all_goals
      split at hp
      · exact ih p hp
      · split at hp
        · exact ih p hp
        · split at hp
          · exact ih p hp
          · rename_i hv
            injection hp with hp
            subst hp
            simpa [verify_db] using hv

/-- Any candidate returned by the glob loop of search_idb_path passed
verify_db. -/
theorem scanRoot_hash (e : Env) (fh : String) :
    ∀ l p, scanRoot e fh l = some p → e.getHash p = fh := by
  intro l
  induction l with
  | nil => intro p hp; simp [scanRoot] at hp
  | cons c cs ih =>
    intro p hp
    simp only [scanRoot] at hp
    split at hp
    · exact ih p hp
    · rename_i hv
      injection hp with hp
      subst hp
      simpa [verify_db] using hv

/-- Any path returned by the root loop of search_idb_path passed verify_db. -/
theorem searchRoots_hash (e : Env) (db : Option String) (fh : String) :
    ∀ l p, searchRoots e db fh l = some p → e.getHash p = fh := by
  intro l
  induction l with
  | nil => intro p hp; simp [searchRoots] at hp
  | cons item rest ih =>
    intro p hp
    simp only [searchRoots] at hp
    split at hp
    · exact ih p hp
    · split at hp
      · rename_i x hs
        injection hp with hp
        rw [← hp]
        exact scanRoot_hash e fh _ x hs
      · exact ih p hp

/-- C1: the artifact locator never returns a path whose computed content hash
differs from the requested hash.  Paths returned by the files loop of
search_history and by the search-root tier search_idb_path are verified via
the external hash function; a path returned by the hash_table tier satisfies
the same property under the trust assumption the spec states for the recency
index, namely that its hash_table records the actual content hash of each
recorded path. -/
theorem locator_hash_verified (e : Env) (db : Option String) (fh : String)
    (hacc : ∀ pr ∈ tableOf e, e.getHash pr.1 = pr.2) :
    (∀ p, search_history e db fh = .ok (some p) → e.getHash p = fh) ∧
    (∀ p, search_idb_path e db fh = some p → e.getHash p = fh) := by
  constructor
  · intro p hp
    cases hv : e.histV2 with
    | absent =>
      rw [search_history] at hp
      simp only [get_history_v2, hv] at hp
      cases hl : e.history with
      | absent => simp [get_history, hl] at hp
      | malformed => simp [get_history, hl] at hp
      | ok v =>
        simp only [get_history, hl] at hp
        split at hp <;> simp at hp
    | malformed =>
      rw [search_history] at hp
      simp [get_history_v2, hv] at hp
    | ok v =>
      obtain ⟨files, table⟩ := v
      rw [search_history] at hp
      simp only [get_history_v2, hv] at hp
      cases hs : scanTable db fh table with
      | some q =>
        rw [hs] at hp
        injection hp with hp
        injection hp with hp
        rw [← hp]
        have hmem : (q, fh) ∈ table := scanTable_mem db fh table q hs
        exact hacc (q, fh) (by simpa [tableOf, hv] using hmem)
      | none =>
        rw [hs] at hp
        injection hp with hp
        exact scanFiles_hash e db fh files p hp
  · intro p hp
    rw [search_idb_path] at hp
    split at hp
    · exact absurd hp (by simp)
    · exact searchRoots_hash e db fh e.roots p hp

/-- Concrete locator environment: a v2 recency index whose hash_table has one
accurate entry. -/
def envW : Env :=
  { histV2 := .ok ([], [("p", "h")]), history := .absent,
    fsExists := fun _ => true, getHash := fun _ => "h",
    roots := [], rootExists := fun _ => true,
    globName := fun _ _ => [], globExts := fun _ => [] }

/-- Witness for C1: at a concrete accurate index the locator returns a path
and its computed hash is the requested one. -/
theorem locator_hash_verified_witness : envW.getHash "p" = "h" :=
  (locator_hash_verified envW none "h" (by
    intro pr hpr
    have h2 : pr ∈ [(("p" : String), ("h" : String))] := hpr
    have h3 : pr = ("p", "h") := by simpa using h2
    rw [h3]
    rfl)).1 "p" rfl

/-- The row loop of check_lock returns true when no row with the requested
pair belongs to another process whose id sorts lexicographically below the
caller. -/
theorem check_scan_true (our n h : String) :
    ∀ l, (∀ r ∈ l, r.2.1 = n → r.2.2 = h → ¬(r.1 ≠ our ∧ r.1 < our)) →
      check_scan our n h l = true := by
  intro l
  induction l with
  | nil => intro hall; rfl
  | cons head rest ih =>
    intro hall
    obtain ⟨pid, name, hash⟩ := head
    simp only [check_scan]
    by_cases h1 : (name != n || hash != h) = true
    · rw [if_pos h1]
      exact ih fun r hr => hall r (List.mem_cons_of_mem _ hr)
    · rw [if_neg h1]
      have hn : name = n ∧ hash = h := by
        simpa [bne_iff_ne, not_or] using h1
      have hhead := hall (pid, name, hash) (List.mem_cons_self _ _) hn.1 hn.2
      have h2 : (pid != our && decide (pid < our)) = false := by
        by_cases hp : pid = our
        · simp [hp]
        · have hd : decide (pid < our) = false := by
            rw [decide_eq_false_iff_not]
            intro hlt
            exact hhead ⟨hp, hlt⟩
          rw [hd, Bool.and_false]
      rw [h2]
      simp only [Bool.false_eq_true, if_false]
      exact ih fun r hr => hall r (List.mem_cons_of_mem _ hr)

/-- The row loop of check_lock returns false as soon as some row with the
requested pair belongs to another process whose id sorts lexicographically
below the caller. -/
theorem check_scan_false (our n h : String) :
    ∀ l r, r ∈ l → r.2.1 = n → r.2.2 = h → r.1 ≠ our → r.1 < our →
      check_scan our n h l = false := by
  intro l
  induction l with
  | nil => intro r hr; exact absurd hr (List.not_mem_nil r)
  | cons head rest ih =>
    intro r hr h1 h2 h3 h4
    obtain ⟨pid, name, hash⟩ := head
    simp only [check_scan]
    rcases List.mem_cons.mp hr with heq | htail
    · subst heq
      have h1a : name = n := h1
      have h2a : hash = h := h2
      have h3a : pid ≠ our := h3
      have h4a : pid < our := h4
      rw [if_neg (by simp [bne_iff_ne, h1a, h2a])]
      rw [if_pos (by simp [bne_iff_ne, h3a, h4a])]
    · by_cases hc1 : (name != n || hash != h) = true
      · rw [if_pos hc1]
        exact ih r htail h1 h2 h3 h4
      · rw [if_neg hc1]
        by_cases hc2 : (pid != our && decide (pid < our)) = true
        · rw [if_pos hc2]
        · rw [if_neg hc2]
          exact ih r htail h1 h2 h3 h4

/-- C2: when exactly two distinct processes have claimed the same
(name, hash) pair in the lock table, check_lock returns true for the process
whose stringified id sorts lexicographically lower and false for the other,
so exactly one of the two proceeds. -/
theorem check_lock_lower_pid_wins (locks : List LockRow) (p1 p2 n h : String)
    (hne : p1 ≠ p2) (hlt : p1 < p2)
    (hm1 : (p1, n, h) ∈ locks) (hm2 : (p2, n, h) ∈ locks)
    (honly : ∀ r ∈ locks, r.2.1 = n → r.2.2 = h → r.1 = p1 ∨ r.1 = p2) :
    check_lock locks p1 n h = .ok true ∧ check_lock locks p2 n h = .ok false := by
  constructor
  · have hmem : p1 ∈ locks.map Prod.fst := List.mem_map_of_mem Prod.fst hm1
    have hs : check_scan p1 n h locks = true := by
      apply check_scan_true
      intro r hr hrn hrh
      rcases honly r hr hrn hrh with h1 | h1
      · intro hcon; exact hcon.1 h1
      · intro hcon
        rw [h1] at hcon
        exact lt_asymm hlt hcon.2
    rw [check_lock, if_pos hmem, hs]
  · have hmem : p2 ∈ locks.map Prod.fst := List.mem_map_of_mem Prod.fst hm2
    have hs : check_scan p2 n h locks = false :=
      check_scan_false p2 n h locks (p1, n, h) hm1 rfl rfl hne hlt
    rw [check_lock, if_pos hmem, hs]

/-- Witness for C2: process ids 10 and 9 both claim the same pair; under the
Python string comparison the id 10 sorts below 9, so the process with id 10
proceeds and the one with id 9 observes check-lock failure. -/
theorem check_lock_lower_pid_wins_witness :
    check_lock [("10", "a", "h"), ("9", "a", "h")] "10" "a" "h" = .ok true ∧
    check_lock [("10", "a", "h"), ("9", "a", "h")] "9" "a" "h" = .ok false :=
  check_lock_lower_pid_wins [("10", "a", "h"), ("9", "a", "h")] "10" "9" "a" "h"
    (by decide) (by rw [String.lt_iff_toList_lt]; decide) (by decide) (by decide)
    (by decide)

/-- Locator environment for the legacy fallback: history.2.json is absent and
history.json holds one recorded path. -/
def envLegacy : Env :=
  { histV2 := .absent, history := .ok ["/home/user/demo.i64"],
    fsExists := fun _ => true, getHash := fun _ => "h",
    roots := [], rootExists := fun _ => true,
    globName := fun _ _ => [], globExts := fun _ => [] }

/-- C3: with the current-shape index absent and a nonempty legacy index
present, search_history does not scan the legacy path list; the unconditional
unpacking assignment on line 290 raises TypeError because history is None, so
the function fails instead of falling back. -/
theorem search_history_legacy_fallback_crashes :
    search_history envLegacy none "h" =
      .error "TypeError: cannot unpack non-iterable NoneType object" := rfl

/-- C4 counterexample: a registry whose single descriptor file does not parse
makes the whole find_rpc scan raise instead of being skipped. -/
theorem find_rpc_malformed_descriptor_fatal :
    find_rpc none "h" [("endpoint1", DescFile.malformed)] =
      .error "JSONDecodeError" := rfl

/-- C4 amended: a descriptor file that parses to an empty object, or whose
parsed object lacks a truthy address field, is skipped and the scan continues
over the remaining descriptors; only unparsable descriptor files abort the
scan. -/
theorem find_rpc_skips_empty_or_addressless (p : String)
    (d : List (String × String)) (rest : List (String × DescFile))
    (db : Option String) (fh : String)
    (hskip : d = [] ∨ d.lookup "address" = none ∨ d.lookup "address" = some "") :
    find_rpc db fh ((p, DescFile.parsed d) :: rest) = find_rpc db fh rest := by
  simp only [find_rpc]
  split
  · rfl
  · split
    · rfl
    · split
      · rfl
      · rename_i hne _ _
        rcases hskip with h0 | h0 | h0
        · subst h0; simp at hne
        · rw [h0]
        · rw [h0]
          rfl

/-- Witness for C4 amended: an empty descriptor ahead of a well-formed one is
skipped and the scan continues with the rest of the directory. -/
theorem find_rpc_skips_empty_or_addressless_witness :
    find_rpc none "h"
        [("e1", DescFile.parsed []),
         ("e2", DescFile.parsed [("file_hash", "h"), ("address", "127.0.0.1:1")])] =
      find_rpc none "h"
        [("e2", DescFile.parsed [("file_hash", "h"), ("address", "127.0.0.1:1")])] :=
  find_rpc_skips_empty_or_addressless "e1" [] _ none "h" (Or.inl rfl)

/-- Per-iteration observations in which find_rpc always returns an endpoint
whose gRPC call fails with status UNAVAILABLE, as when eviction keeps racing
with stale descriptors reappearing in the registry. -/
def envUnavailable : Nat → IterEnv := fun _ =>
  { findSome := true, launchOk := true, pollSome := true, rpc := .unavailable }

/-- C5: the evict-and-retry while loop of run has no iteration bound: against
observations that always yield an unavailable endpoint it is still running
after any number of iterations, and in particular it never terminates with
the excess-invalid-endpoint exit code -5 that the module docstring documents
but that no code path produces. -/
theorem run_loop_unbounded_on_unavailable :
    ∀ k, run_loop envUnavailable k = .running ∧
      run_loop envUnavailable k ≠ LoopStatus.exited (-5) := by
  intro k
  induction k with
  | zero => exact ⟨rfl, by decide⟩
  | succ k ih =>
    have hk : run_loop envUnavailable (k + 1) = .running := by
      simp [run_loop, ih.1, run_iter, envUnavailable, rpc_step]
    exact ⟨hk, by rw [hk]; decide⟩

/-- C6 counterexample: with the in-progress marker present and never cleared,
lock_search fails with TimeoutError, and afterwards the marker is gone: the
timing-out caller deleted the other updater's marker file. -/
theorem lock_search_timeout_deletes_marker_example :
    (lock_search { marker := true, table := none } "100" "db.i64" "ffff").1 =
        .error "TimeoutError: Ran out of time waiting for search lock" ∧
      (lock_search { marker := true, table := none } "100" "db.i64" "ffff").2.marker
        = false :=
  ⟨rfl, rfl⟩

/-- C6 amended: if the marker persists past the bounded wait timeout, the
lock-table mutation (lock_search or release_lock) fails with TimeoutError,
but its exception cleanup deletes the persisting marker file before
re-raising, overriding the marker left by the other, possibly wedged,
updater. -/
theorem lock_mutation_timeout_errors_and_removes_marker
    (s : LockFs) (pid name hash : String) (hm : s.marker = true) :
    (lock_search s pid name hash).1 =
        .error "TimeoutError: Ran out of time waiting for search lock" ∧
      (lock_search s pid name hash).2.marker = false ∧
      (release_lock s pid).1 =
        .error "TimeoutError: Ran out of time waiting for search lock" ∧
      (release_lock s pid).2.marker = false := by
  simp [lock_search, release_lock, hm]

/-- Witness for C6 amended: a concrete state with the marker held. -/
theorem lock_mutation_timeout_witness :
    (lock_search { marker := true, table := some [] } "7" "a" "hh").1 =
        .error "TimeoutError: Ran out of time waiting for search lock" ∧
      (lock_search { marker := true, table := some [] } "7" "a" "hh").2.marker = false ∧
      (release_lock { marker := true, table := some [] } "7").1 =
        .error "TimeoutError: Ran out of time waiting for search lock" ∧
      (release_lock { marker := true, table := some [] } "7").2.marker = false :=
  lock_mutation_timeout_errors_and_removes_marker
    { marker := true, table := some [] } "7" "a" "hh" rfl

/-- Locator environment with a v2 recency index whose hash_table holds one
full path whose last segment is the requested name. -/
def envTablePath : Env :=
  { histV2 := .ok ([], [("/home/user/test.i64", "h")]), history := .absent,
    fsExists := fun _ => false, getHash := fun _ => "", roots := [],
    rootExists := fun _ => false, globName := fun _ _ => [], globExts := fun _ => [] }

/-- C7: the hash-table tier of search_history compares the requested name
against the whole path key, not against its final filename component: an
entry whose recorded hash matches and whose last segment equals the requested
name is skipped, and the search finds nothing. -/
theorem search_history_table_name_whole_path :
    search_history envTablePath (some "test.i64") "h" = .ok none ∧
    lastSegment "/home/user/test.i64" = "test.i64" :=
  ⟨rfl, rfl⟩

/-- The poll loop returns none whenever find_rpc keeps returning nothing. -/
theorem poll_loop_none (find : Nat → Option (String × String))
    (hf : ∀ t, find t = none) (limit : Nat) :
    ∀ k t, limit - t ≤ k → poll_loop find limit t = none := by
  intro k
  induction k with
  | zero =>
    intro t ht
    rw [poll_loop]
    rw [dif_neg (by omega)]
  | succ k ih =>
    intro t ht
    rw [poll_loop]
    by_cases hc : t + 1 < limit
    · rw [dif_pos hc, hf (t + 1)]
      exact ih (t + 1) (by omega)
    · rw [dif_neg hc]

/-- C8: with no endpoint ever registering, poll_rpc exhausts its default
budget of 32 time units polled in 0.5-unit steps and returns none, the
timed-out outcome; the poll-timeout branch of run then evaluates an f-string
naming the undefined variable idb_name, so NameError propagates and the
process exits through the top-level handler with code -1, not with the
documented poll-timeout code -6. -/
theorem poll_rpc_timeout_exit_code :
    poll_rpc (fun _ => none) = none ∧ poll_timeout_exit = -1 ∧
      poll_timeout_exit ≠ -6 := by
  refine ⟨?_, rfl, by decide⟩
  exact poll_loop_none (fun _ => none) (fun _ => rfl) 64 64 0 (by omega)

/-- popEntry of an absent key leaves the table unchanged. -/
theorem popEntry_absent :
    ∀ (t : List LockRow) (pid : String), pid ∉ t.map Prod.fst →
      popEntry t pid = t := by
  intro t
  induction t with
  | nil => intro pid _; rfl
  | cons head rest ih =>
    intro pid habs
    obtain ⟨k, r⟩ := head
    rw [List.map_cons, List.mem_cons, not_or] at habs
    have hk : (k == pid) = false :=
      beq_eq_false_iff_ne.mpr fun hh => habs.1 hh.symm
    simp only [popEntry, hk, Bool.false_eq_true, if_false]
    rw [ih pid habs.2]

/-- setEntry of an absent key appends the new row at the end of the table. -/
theorem setEntry_absent :
    ∀ (t : List LockRow) (pid : String) (v : String × String),
      pid ∉ t.map Prod.fst → setEntry t pid v = t ++ [(pid, v)] := by
  intro t
  induction t with
  | nil => intro pid v _; rfl
  | cons head rest ih =>
    intro pid v habs
    obtain ⟨k, r⟩ := head
    rw [List.map_cons, List.mem_cons, not_or] at habs
    have hk : (k == pid) = false :=
      beq_eq_false_iff_ne.mpr fun hh => habs.1 hh.symm
    simp only [setEntry, hk, Bool.false_eq_true, if_false]
    rw [ih pid v habs.2]
    rfl

/-- popEntry of a key just appended to a table that lacked it recovers the
original table. -/
theorem popEntry_append :
    ∀ (t : List LockRow) (pid : String) (v : String × String),
      pid ∉ t.map Prod.fst → popEntry (t ++ [(pid, v)]) pid = t := by
  intro t
  induction t with
  | nil => intro pid v _; simp [popEntry]
  | cons head rest ih =>
    intro pid v habs
    obtain ⟨k, r⟩ := head
    rw [List.map_cons, List.mem_cons, not_or] at habs
    have hk : (k == pid) = false :=
      beq_eq_false_iff_ne.mpr fun hh => habs.1 hh.symm
    simp only [List.cons_append, popEntry, hk, Bool.false_eq_true, if_false]
    exact congrArg (fun l => (k, r) :: l) (ih pid v habs.2)

/-- C9: release_lock is idempotent on the lock-table mapping: when the
calling process id has no row it succeeds and leaves the mapping unchanged,
and lock_search followed by release_lock restores the original mapping
whenever the caller's id was not already present. -/
theorem release_lock_idempotent_restore (s : LockFs) (pid name hash : String)
    (hm : s.marker = false) (habs : pid ∉ (tableMapping s).map Prod.fst) :
    (release_lock s pid).1 = .ok () ∧
      tableMapping (release_lock s pid).2 = tableMapping s ∧
      (lock_search s pid name hash).1 = .ok () ∧
      tableMapping (release_lock (lock_search s pid name hash).2 pid).2 =
        tableMapping s := by
  refine ⟨?_, ?_, ?_, ?_⟩
  · simp [release_lock, hm]
  · simp only [release_lock, hm, Bool.false_eq_true, if_false, tableMapping,
      Option.getD_some]
    exact popEntry_absent _ pid habs
  · simp [lock_search, hm]
  · have habs2 : pid ∉ (s.table.getD []).map Prod.fst := habs
    simp only [lock_search, release_lock, hm, Bool.false_eq_true, if_false,
      tableMapping, Option.getD_some]
    rw [setEntry_absent (s.table.getD []) pid (name, hash) habs2]
    exact popEntry_append _ pid (name, hash) habs2

/-- Witness for C9: a concrete table holding one row for another process. -/
theorem release_lock_idempotent_restore_witness :
    (release_lock { marker := false, table := some [("1", "x", "y")] } "2").1
        = .ok () ∧
      tableMapping (release_lock
          { marker := false, table := some [("1", "x", "y")] } "2").2 =
        tableMapping { marker := false, table := some [("1", "x", "y")] } ∧
      (lock_search { marker := false, table := some [("1", "x", "y")] }
          "2" "db" "hh").1 = .ok () ∧
      tableMapping (release_lock
          (lock_search { marker := false, table := some [("1", "x", "y")] }
            "2" "db" "hh").2 "2").2 =
        tableMapping { marker := false, table := some [("1", "x", "y")] } :=
  release_lock_idempotent_restore
    { marker := false, table := some [("1", "x", "y")] } "2" "db" "hh" rfl
    (by decide)

/-- C10: check_lock raises the RuntimeError exactly when the calling process
id has no row in the lock table, and returns a boolean verdict, the row-loop
result, exactly when its own claim is recorded. -/
theorem check_lock_requires_own_row (locks : List LockRow) (our n h : String) :
    (our ∉ locks.map Prod.fst ∧
        check_lock locks our n h =
          .error "Search lock not taken before lock check") ∨
      (our ∈ locks.map Prod.fst ∧
        check_lock locks our n h = .ok (check_scan our n h locks)) := by
  by_cases hmem : our ∈ locks.map Prod.fst
  · exact Or.inr ⟨hmem, by unfold check_lock; rw [if_pos hmem]⟩
  · exact Or.inl ⟨hmem, by unfold check_lock; rw [if_neg hmem]⟩
